import Mathlib

/-!
Shallow embedding of the `SimpleConsole` front end of
`bracket-bevy/src/consoles/simple_console/front_end.rs`, together with a
spec-modelled back end (dirty tracking and mesh geometry), and proofs of the
behavioural claims about the console drawing API.

Machine integers (`usize`, `u16`) are modelled as `Nat`; the `f32` colour
channels are modelled as `ℚ` (no floating-point rounding is relevant to any
claim: colours are only stored and compared). Rust's panicking paths
(index out of range, `usize` subtraction underflow) are modelled by `Option`
in the `Checked` variants; the total variants model the in-bounds behaviour
and agree with the checked ones whenever the checked ones succeed.
-/

/-- An RGBA colour quadruple, the result of bevy's `Color::as_rgba_f32`.
`bevy::prelude::Color` is external to the repository; the embedding
identifies a colour with its RGBA f32 quadruple. -/
structure RGBA where
  r : ℚ
  g : ℚ
  b : ℚ
  a : ℚ
deriving DecidableEq, Repr

/-- Rust `Color::as_rgba_f32`: on the quadruple representation it is the
identity. -/
def RGBA.as_rgba_f32 (c : RGBA) : RGBA := c

/-- Rust `Color::WHITE` as an RGBA quadruple. -/
def WHITE : RGBA := ⟨1, 1, 1, 1⟩

/-- Rust `Color::BLACK` as an RGBA quadruple. -/
def BLACK : RGBA := ⟨0, 0, 0, 1⟩

/-- One cell of the console grid: a glyph code (`u16`) plus foreground and
background RGBA colours. The struct itself lives in the back-end module,
which is outside `src/`; its shape is fixed by the uses in
`front_end.rs` (`TerminalGlyph { glyph, foreground, background }`). -/
structure TerminalGlyph where
  glyph : Nat
  foreground : RGBA
  background : RGBA
deriving DecidableEq, Repr

/-- Modelled from the spec: the default cell is glyph 32 (space), white
foreground, black background (spec section 3, Terminal Cell). -/
def TerminalGlyph.default : TerminalGlyph := ⟨32, WHITE, BLACK⟩

instance : Inhabited TerminalGlyph := ⟨TerminalGlyph.default⟩

/-- Modelled from the spec: the external CP437 text encoder
(`to_cp437`) is a pure function from a character to a glyph code
(legacy 8-bit code-page mapping). Only the box-drawing characters and the
ASCII range matter to the claims; other characters are mapped to a
placeholder code. -/
def to_cp437 (ch : Char) : Nat :=
  if ch = '─' then 196
  else if ch = '│' then 179
  else if ch = '┌' then 218
  else if ch = '┐' then 191
  else if ch = '└' then 192
  else if ch = '┘' then 217
  else if ch.toNat < 128 then ch.toNat
  else 63

/-- Modelled from the spec: the external encoder `string_to_cp437` maps a
string (modelled as its list of characters) to the sequence of CP437 glyph
codes, one per character. -/
def string_to_cp437 (text : List Char) : List Nat := text.map to_cp437

/-- Rust `text.to_string().len()`: the UTF-8 byte length of the string,
the sum of the UTF-8 sizes of its characters. -/
def rustStrLen (text : List Char) : Nat := (text.map Char.utf8Size).sum

/-- Events a back end can perform during the per-frame update, used to state
the ordering claim about `update_mesh`. -/
inductive BackendEvent where
  | recomputeDirty
  | patchGeometry
  | clearDirty
deriving DecidableEq, Repr

/-- The dirty set: either the all-dirty sentinel (first build, or dirty
optimization disabled) or an explicit list of changed cell indices. -/
inductive DirtySet where
  | allDirty
  | cells (idxs : List Nat)
deriving DecidableEq, Repr

/-- Modelled from the spec: per-font metadata (glyph columns per row, total
rows, pixel height of one glyph), supplied externally (`FontStore`). -/
structure FontMeta where
  chars_per_row : Nat
  n_rows : Nat
  font_height_pixels : ℚ
deriving DecidableEq, Repr

/-- One vertex of the mesh geometry: position (x, y, z), colour, texture
coordinate. -/
structure Vertex where
  px : ℚ
  py : ℚ
  pz : ℚ
  color : RGBA
  u : ℚ
  v : ℚ
deriving DecidableEq, Repr

/-- Modelled from the spec: the back-end state
(`SimpleBackendWithBackground` / `SimpleBackendNoBackground`, outside
`src/`): font metadata, grid dimensions, base depth, the
`NoDirtyOptimization` flag, the retained previous-frame snapshot and the
dirty set (spec sections 4.2 to 4.4, 9). -/
structure Backend where
  with_background : Bool
  font : FontMeta
  width : Nat
  height : Nat
  base_z : ℚ
  no_dirty_opt : Bool
  snapshot : Option (List TerminalGlyph)
  dirty : DirtySet
deriving DecidableEq, Repr

/-- Modelled from the spec: texture rectangle of a glyph code:
`row = code / columns`, `col = code % columns`, rectangle
`(col/columns, row/rows, (col+1)/columns, (row+1)/rows)`
(spec sections 3 and 6). Returns (u0, v0, u1, v1). -/
def texRect (font : FontMeta) (code : Nat) : ℚ × ℚ × ℚ × ℚ :=
  let col : Nat := code % font.chars_per_row
  let row : Nat := code / font.chars_per_row
  ((col : ℚ) / font.chars_per_row, (row : ℚ) / font.n_rows,
   ((col : ℚ) + 1) / font.chars_per_row, ((row : ℚ) + 1) / font.n_rows)

/-- One textured, coloured quad as four vertices (counter-clockwise from the
lower-left corner), at depth `z`. -/
def quadVerts (x0 y0 x1 y1 : ℚ) (color : RGBA) (uv : ℚ × ℚ × ℚ × ℚ)
    (z : ℚ) : List Vertex :=
  [⟨x0, y0, z, color, uv.1, uv.2.2.2⟩,
   ⟨x1, y0, z, color, uv.2.2.1, uv.2.2.2⟩,
   ⟨x1, y1, z, color, uv.2.2.1, uv.2.1⟩,
   ⟨x0, y1, z, color, uv.1, uv.2.1⟩]

/-- Modelled from the spec: the geometry block a back end builds for one
cell. Position offsets by cell coordinate times cell pixel size; the
with-background variant renders an opaque background quad at `base_z` and a
textured glyph quad at `base_z + 1/2` above it; the no-background variant
renders the glyph quad only (spec sections 4.3 and 4.4). -/
def cellGeometry (be : Backend) (i : Nat) (cell : TerminalGlyph) :
    List Vertex :=
  let cx : Nat := i % be.width
  let cy : Nat := i / be.width
  let s : ℚ := be.font.font_height_pixels
  let x0 : ℚ := (cx : ℚ) * s
  let y0 : ℚ := (cy : ℚ) * s
  let glyphQuad := quadVerts x0 y0 (x0 + s) (y0 + s) cell.foreground
    (texRect be.font cell.glyph) (be.base_z + 1/2)
  if be.with_background then
    quadVerts x0 y0 (x0 + s) (y0 + s) cell.background (0, 0, 0, 0) be.base_z
      ++ glyphQuad
  else
    glyphQuad

/-- Modelled from the spec: a full rebuild of the geometry buffer, one
geometry block per cell in storage order (spec section 4.3,
`update_mesh` on the all-dirty sentinel). -/
def fullBuild (be : Backend) (terminal : List TerminalGlyph) :
    List (List Vertex) :=
  (List.range (be.width * be.height)).map
    (fun i => cellGeometry be i (terminal.getD i TerminalGlyph.default))

/-- Modelled from the spec: incremental patch of the geometry buffer:
recompute only the blocks of the dirty cell indices and patch them in
place, leaving other blocks untouched (spec section 4.3). -/
def patchBuffer (be : Backend) (terminal : List TerminalGlyph)
    (idxs : List Nat) (buffer : List (List Vertex)) : List (List Vertex) :=
  idxs.foldl
    (fun buf i => buf.set i (cellGeometry be i (terminal.getD i TerminalGlyph.default)))
    buffer

/-- Modelled from the spec: the dirty-set computation (spec section 4.2).
If optimization is disabled, all-dirty; on the first call (no snapshot),
all-dirty; otherwise the indices whose cell value differs from the
retained snapshot. -/
def computeDirty (disabled : Bool) (snapshot : Option (List TerminalGlyph))
    (terminal : List TerminalGlyph) : DirtySet :=
  if disabled then .allDirty
  else
    match snapshot with
    | none => .allDirty
    | some prev =>
      .cells ((List.range terminal.length).filter
        (fun i => terminal.get? i ≠ prev.get? i))

/-- Modelled from the spec: back-end `update_dirty` recomputes the dirty set
from the current grid and updates the snapshot for the next frame's
comparison (spec section 4.2). -/
def Backend.update_dirty (be : Backend) (terminal : List TerminalGlyph) :
    Backend :=
  { be with dirty := computeDirty be.no_dirty_opt be.snapshot terminal,
            snapshot := some terminal }

/-- Modelled from the spec: back-end `update_mesh`: full rebuild on the
all-dirty sentinel, in-place patch of the dirty blocks otherwise
(spec section 4.3). The geometry buffer lives in the engine's mesh store,
modelled as the list of per-cell geometry blocks. -/
def Backend.update_mesh (be : Backend) (terminal : List TerminalGlyph)
    (buffer : List (List Vertex)) : List (List Vertex) :=
  match be.dirty with
  | .allDirty => fullBuild be terminal
  | .cells idxs => patchBuffer be terminal idxs buffer

/-- Modelled from the spec: back-end `clear_dirty` resets the dirty state
for the next frame (spec section 4.2: cleared to empty after each mesh
update). -/
def Backend.clear_dirty (be : Backend) : Backend :=
  { be with dirty := .cells [] }

/-- A spawned drawable entity: mesh is implicit (the back end's registered
handle), material handle and z-order index as passed by the caller.
Modelled from the spec (section 4.3, `spawn`: fire-and-forget entity
emission). -/
structure SpawnCmd where
  material : Nat
  z_index : Nat
deriving DecidableEq, Repr

/-- Modelled from the spec: back-end `spawn` emits one drawable entity
referencing the registered mesh and the given material at the given
z-order. -/
def Backend.spawn (material : Nat) (idx : Nat) : List SpawnCmd :=
  [⟨material, idx⟩]

/-- The console front end (`SimpleConsole` in `front_end.rs`): font index,
grid dimensions, the flat cell vector, and the optional back end. -/
structure SimpleConsole where
  font_index : Nat
  width : Nat
  height : Nat
  terminal : List TerminalGlyph
  back_end : Option Backend
deriving DecidableEq, Repr

namespace SimpleConsole

/-- `SimpleConsole::new`: grid of `width * height` default cells, no back
end. -/
def new (font_index width height : Nat) : SimpleConsole :=
  ⟨font_index, width, height,
   List.replicate (width * height) TerminalGlyph.default, none⟩

/-- `SimpleConsole::at`: `((self.height - 1 - y) * self.width) + x`.
Total model using truncated `Nat` subtraction; `atChecked` models the
panicking `usize` subtraction. -/
def atIndex (c : SimpleConsole) (x y : Nat) : Nat :=
  (c.height - 1 - y) * c.width + x

/-- `SimpleConsole::at` with Rust's `usize` underflow semantics:
`self.height - 1 - y` panics when `height = 0` or `y > height - 1`,
i.e. exactly when `y ≥ height`. -/
def atChecked (c : SimpleConsole) (x y : Nat) : Option Nat :=
  if y < c.height then some ((c.height - 1 - y) * c.width + x) else none

/-- `SimpleConsole::spawn`: when a back end is present, delegate to its
`spawn`; otherwise do nothing. The emitted entities are returned. -/
def spawn (c : SimpleConsole) (material : Nat) (idx : Nat) : List SpawnCmd :=
  match c.back_end with
  | some _ => Backend.spawn material idx
  | none => []

/-- `ConsoleFrontEnd::cls`: set every cell's glyph to 32, touching nothing
else. -/
def cls (c : SimpleConsole) : SimpleConsole :=
  { c with terminal := c.terminal.map (fun g => { g with glyph := 32 }) }

/-- `ConsoleFrontEnd::set`: overwrite the cell at index `at x y` with the
given glyph and colours. Total model: an out-of-range index leaves the
grid unchanged (`List.set` out of range is the identity); `setChecked`
models the panicking Rust indexing. -/
def set (c : SimpleConsole) (x y : Nat) (fg bg : RGBA) (glyph : Nat) :
    SimpleConsole :=
  let idx := c.atIndex x y
  { c with terminal :=
      c.terminal.set idx ⟨glyph, fg.as_rgba_f32, bg.as_rgba_f32⟩ }

/-- `ConsoleFrontEnd::set` with Rust's panic semantics: `none` when the
index computation underflows (`y ≥ height`) or the computed index is out
of range of the cell vector. -/
def setChecked (c : SimpleConsole) (x y : Nat) (fg bg : RGBA) (glyph : Nat) :
    Option SimpleConsole :=
  match c.atChecked x y with
  | none => none
  | some idx =>
    if idx < c.terminal.length then
      some { c with terminal :=
        c.terminal.set idx ⟨glyph, fg.as_rgba_f32, bg.as_rgba_f32⟩ }
    else none

/-- The loop body of `ConsoleFrontEnd::print`: write the glyph codes into
consecutive cells starting at `(x, y)`, incrementing `x`, each cell
white-on-black. -/
def printLoop (c : SimpleConsole) (x y : Nat) : List Nat → SimpleConsole
  | [] => c
  | glyph :: rest =>
    let idx := c.atIndex x y
    let cell : TerminalGlyph := ⟨glyph, WHITE.as_rgba_f32, BLACK.as_rgba_f32⟩
    printLoop { c with terminal := c.terminal.set idx cell } (x + 1) y rest

/-- `ConsoleFrontEnd::print`: encode the text and write the glyphs in
consecutive cells, white-on-black. -/
def print (c : SimpleConsole) (x y : Nat) (text : List Char) :
    SimpleConsole :=
  printLoop c x y (string_to_cp437 text)

/-- The loop body of `ConsoleFrontEnd::print_color`, with caller-supplied
uniform colours. -/
def printColorLoop (c : SimpleConsole) (x y : Nat) (fg bg : RGBA) :
    List Nat → SimpleConsole
  | [] => c
  | glyph :: rest =>
    let idx := c.atIndex x y
    let cell : TerminalGlyph := ⟨glyph, fg.as_rgba_f32, bg.as_rgba_f32⟩
    printColorLoop { c with terminal := c.terminal.set idx cell } (x + 1) y
      fg bg rest

/-- `ConsoleFrontEnd::print_color`: like `print` with caller colours. -/
def print_color (c : SimpleConsole) (x y : Nat) (text : List Char)
    (fg bg : RGBA) : SimpleConsole :=
  printColorLoop c x y fg bg (string_to_cp437 text)

/-- `ConsoleFrontEnd::print_centered`:
`self.print((self.width / 2) - (text.to_string().len() / 2), y, text)`.
The text length used is the raw string byte length. -/
def print_centered (c : SimpleConsole) (y : Nat) (text : List Char) :
    SimpleConsole :=
  c.print (c.width / 2 - rustStrLen text / 2) y text

/-- `ConsoleFrontEnd::draw_box`: fill `sx..sx+width` times `sy..sy+height`
(exclusive) with blank white-on-black cells, then write the four corners,
the horizontal edges at interior `x`, and the vertical edges at interior
`y`, with the caller's colours. Rust `for v in a..b` is
`List.range' a (b - a)`. -/
def draw_box (c : SimpleConsole) (sx sy width height : Nat)
    (fg bg : RGBA) : SimpleConsole :=
  let c1 := (List.range' sy height).foldl
    (fun acc y => (List.range' sx width).foldl
      (fun acc2 x => acc2.set x y WHITE BLACK 32) acc) c
  let c2 := c1.set sx sy fg bg (to_cp437 '┌')
  let c3 := c2.set (sx + width) sy fg bg (to_cp437 '┐')
  let c4 := c3.set sx (sy + height) fg bg (to_cp437 '└')
  let c5 := c4.set (sx + width) (sy + height) fg bg (to_cp437 '┘')
  let c6 := (List.range' (sx + 1) (width - 1)).foldl
    (fun acc x =>
      (acc.set x sy fg bg (to_cp437 '─')).set x (sy + height) fg bg
        (to_cp437 '─')) c5
  (List.range' (sy + 1) (height - 1)).foldl
    (fun acc y =>
      (acc.set sx y fg bg (to_cp437 '│')).set (sx + width) y fg bg
        (to_cp437 '│')) c6

/-- `ConsoleFrontEnd::update_mesh`: three sequential steps, each guarded by
the presence of the back end: recompute the dirty set from the current
grid, update the mesh geometry, clear the dirty state. The returned trace
records which back-end steps ran, in order. -/
def update_mesh (c : SimpleConsole) (buffer : List (List Vertex)) :
    SimpleConsole × List (List Vertex) × List BackendEvent :=
  let step1 : SimpleConsole × List BackendEvent :=
    match c.back_end with
    | some be =>
      ({ c with back_end := some (be.update_dirty c.terminal) },
       [.recomputeDirty])
    | none => (c, [])
  let c1 := step1.1
  let step2 : List (List Vertex) × List BackendEvent :=
    match c1.back_end with
    | some be => (be.update_mesh c1.terminal buffer, [.patchGeometry])
    | none => (buffer, [])
  let step3 : SimpleConsole × List BackendEvent :=
    match c1.back_end with
    | some be => ({ c1 with back_end := some be.clear_dirty }, [.clearDirty])
    | none => (c1, [])
  (step3.1, step2.1, step1.2 ++ step2.2 ++ step3.2)

/-- Reading a cell: the grid entry at the storage index of `(x, y)`. -/
def getCell (c : SimpleConsole) (x y : Nat) : TerminalGlyph :=
  c.terminal.getD (c.atIndex x y) TerminalGlyph.default

end SimpleConsole

/-! Helper lemmas about the console operations. -/

namespace SimpleConsole

@[simp] theorem set_width (c : SimpleConsole) (x y : Nat) (fg bg : RGBA)
    (g : Nat) : (c.set x y fg bg g).width = c.width := rfl

@[simp] theorem set_height (c : SimpleConsole) (x y : Nat) (fg bg : RGBA)
    (g : Nat) : (c.set x y fg bg g).height = c.height := rfl

@[simp] theorem set_terminal_length (c : SimpleConsole) (x y : Nat)
    (fg bg : RGBA) (g : Nat) :
    (c.set x y fg bg g).terminal.length = c.terminal.length :=
  List.length_set ..

@[simp] theorem atIndex_set (c : SimpleConsole) (x y x' y' : Nat)
    (fg bg : RGBA) (g : Nat) :
    (c.set x' y' fg bg g).atIndex x y = c.atIndex x y := rfl

theorem set_eq_update (c : SimpleConsole) (x y : Nat) (fg bg : RGBA)
    (g : Nat) :
    c.set x y fg bg g =
      { c with terminal := c.terminal.set (c.atIndex x y) ⟨g, fg, bg⟩ } := rfl

theorem atIndex_lt (c : SimpleConsole) {x y : Nat}
    (hlen : c.terminal.length = c.width * c.height)
    (hx : x < c.width) (hy : y < c.height) :
    c.atIndex x y < c.terminal.length := by
  rw [hlen]
  unfold atIndex
  have h1 : c.height - 1 - y + 1 ≤ c.height := by omega
  calc (c.height - 1 - y) * c.width + x
      < (c.height - 1 - y) * c.width + c.width := by omega
    _ = (c.height - 1 - y + 1) * c.width := (Nat.succ_mul _ _).symm
    _ ≤ c.height * c.width := Nat.mul_le_mul_right _ h1
    _ = c.width * c.height := Nat.mul_comm _ _

theorem atIndex_inj (c : SimpleConsole) {x y x' y' : Nat}
    (hx : x < c.width) (hy : y < c.height)
    (hx' : x' < c.width) (hy' : y' < c.height)
    (h : c.atIndex x y = c.atIndex x' y') : x = x' ∧ y = y' := by
  have hw : 0 < c.width := Nat.lt_of_le_of_lt (Nat.zero_le x) hx
  unfold atIndex at h
  have key : ∀ a b : Nat, b < c.width → (a * c.width + b) / c.width = a := by
    intro a b hb
    rw [Nat.mul_comm, Nat.mul_add_div hw, Nat.div_eq_of_lt hb, Nat.add_zero]
  have ha : c.height - 1 - y = c.height - 1 - y' := by
    have h1 := key (c.height - 1 - y) x hx
    have h2 := key (c.height - 1 - y') x' hx'
    rw [← h1, ← h2, h]
  constructor
  · have := ha ▸ h
    omega
  · omega

theorem getCell_update_idx (c : SimpleConsole) (idx : Nat)
    (v : TerminalGlyph) (x y : Nat) (hidx : idx < c.terminal.length) :
    ({ c with terminal := c.terminal.set idx v } : SimpleConsole).getCell x y
      = if c.atIndex x y = idx then v else c.getCell x y := by
  show (c.terminal.set idx v).getD (c.atIndex x y) TerminalGlyph.default = _
  rw [List.getD_eq_getElem?_getD, List.getElem?_set]
  by_cases h : c.atIndex x y = idx
  · simp [h, hidx]
  · have h' : idx ≠ c.atIndex x y := fun e => h e.symm
    rw [if_neg h', if_neg h]
    simp only [getCell]
    exact (List.getD_eq_getElem?_getD _ _ _).symm

theorem getCell_set (c : SimpleConsole) {x y x' y' : Nat} (fg bg : RGBA)
    (g : Nat) (hlen : c.terminal.length = c.width * c.height)
    (hx : x < c.width) (hy : y < c.height)
    (hx' : x' < c.width) (hy' : y' < c.height) :
    (c.set x' y' fg bg g).getCell x y =
      if x = x' ∧ y = y' then ⟨g, fg, bg⟩ else c.getCell x y := by
  rw [set_eq_update,
    getCell_update_idx c _ _ _ _ (c.atIndex_lt hlen hx' hy')]
  by_cases h : x = x' ∧ y = y'
  · simp [h.1, h.2]
  · have hne : c.atIndex x y ≠ c.atIndex x' y' := by
      intro he
      exact h (c.atIndex_inj hx hy hx' hy' he)
    simp [hne, h]

end SimpleConsole

/-! Claim theorems, first group. -/

/-- C1: for a console with width at least 1 and height at least 1, the
storage index used by the drawing operations is
`(height - 1 - y) * width + x` for every in-bounds `(x, y)`; this mapping
is injective over the grid's domain, sends `(0, height - 1)` to `0` and
sends `(width - 1, 0)` to `width * height - 1`. -/
theorem c1_index_mapping (c : SimpleConsole)
    (hw : 1 ≤ c.width) (hh : 1 ≤ c.height) :
    (∀ x y, x < c.width → y < c.height →
      c.atIndex x y = (c.height - 1 - y) * c.width + x)
    ∧ (∀ x y x' y', x < c.width → y < c.height → x' < c.width →
        y' < c.height → c.atIndex x y = c.atIndex x' y' → x = x' ∧ y = y')
    ∧ c.atIndex 0 (c.height - 1) = 0
    ∧ c.atIndex (c.width - 1) 0 = c.width * c.height - 1 := by
  refine ⟨fun x y _ _ => rfl,
    fun x y x' y' hx hy hx' hy' h => c.atIndex_inj hx hy hx' hy' h, ?_, ?_⟩
  · show (c.height - 1 - (c.height - 1)) * c.width + 0 = 0
    simp
  · show (c.height - 1 - 0) * c.width + (c.width - 1) = c.width * c.height - 1
    have h1 : (c.height - 1) * c.width = c.height * c.width - c.width :=
      Nat.sub_one_mul _ _
    have h2 : c.width ≤ c.height * c.width :=
      Nat.le_mul_of_pos_left _ hh
    rw [Nat.sub_zero, h1, Nat.mul_comm c.width c.height]
    omega

/-- C1 witness at a concrete 4 by 3 console. -/
theorem c1_index_mapping_witness :
    1 ≤ (SimpleConsole.new 0 4 3).width ∧ 1 ≤ (SimpleConsole.new 0 4 3).height
    ∧ ((∀ x y, x < (SimpleConsole.new 0 4 3).width →
          y < (SimpleConsole.new 0 4 3).height →
          (SimpleConsole.new 0 4 3).atIndex x y =
            ((SimpleConsole.new 0 4 3).height - 1 - y) *
              (SimpleConsole.new 0 4 3).width + x)
      ∧ (∀ x y x' y', x < (SimpleConsole.new 0 4 3).width →
          y < (SimpleConsole.new 0 4 3).height →
          x' < (SimpleConsole.new 0 4 3).width →
          y' < (SimpleConsole.new 0 4 3).height →
          (SimpleConsole.new 0 4 3).atIndex x y =
            (SimpleConsole.new 0 4 3).atIndex x' y' → x = x' ∧ y = y')
      ∧ (SimpleConsole.new 0 4 3).atIndex 0
          ((SimpleConsole.new 0 4 3).height - 1) = 0
      ∧ (SimpleConsole.new 0 4 3).atIndex
          ((SimpleConsole.new 0 4 3).width - 1) 0 =
          (SimpleConsole.new 0 4 3).width * (SimpleConsole.new 0 4 3).height
            - 1) :=
  ⟨by decide, by decide,
   c1_index_mapping (SimpleConsole.new 0 4 3) (by decide) (by decide)⟩

/-- C2: for every in-bounds `(x, y)` and any colours and glyph,
`set x y fg bg glyph` makes the cell at `(x, y)` hold exactly that glyph
with foreground `fg` and background `bg`, and every other in-bounds cell
is unchanged. -/
theorem c2_set_overwrites_one_cell (c : SimpleConsole) (x y : Nat)
    (fg bg : RGBA) (g : Nat)
    (hlen : c.terminal.length = c.width * c.height)
    (hx : x < c.width) (hy : y < c.height) :
    (c.set x y fg bg g).getCell x y = ⟨g, fg, bg⟩
    ∧ (∀ x' y', x' < c.width → y' < c.height → ¬(x' = x ∧ y' = y) →
        (c.set x y fg bg g).getCell x' y' = c.getCell x' y') := by
  constructor
  · rw [c.getCell_set fg bg g hlen hx hy hx hy]
    simp
  · intro x' y' hx' hy' hne
    rw [c.getCell_set fg bg g hlen hx' hy' hx hy]
    simp [hne]

/-- C2 witness: a concrete write on a 3 by 3 console. -/
theorem c2_set_overwrites_one_cell_witness :
    ((SimpleConsole.new 0 3 3).terminal.length =
      (SimpleConsole.new 0 3 3).width * (SimpleConsole.new 0 3 3).height)
    ∧ (1 < (SimpleConsole.new 0 3 3).width
        ∧ 2 < (SimpleConsole.new 0 3 3).height)
    ∧ (((SimpleConsole.new 0 3 3).set 1 2 ⟨1, 0, 0, 1⟩ ⟨0, 0, 1, 1⟩
          65).getCell 1 2 = ⟨65, ⟨1, 0, 0, 1⟩, ⟨0, 0, 1, 1⟩⟩
      ∧ (∀ x' y', x' < (SimpleConsole.new 0 3 3).width →
          y' < (SimpleConsole.new 0 3 3).height → ¬(x' = 1 ∧ y' = 2) →
          ((SimpleConsole.new 0 3 3).set 1 2 ⟨1, 0, 0, 1⟩ ⟨0, 0, 1, 1⟩
            65).getCell x' y' = (SimpleConsole.new 0 3 3).getCell x' y')) :=
  ⟨by decide, ⟨by decide, by decide⟩,
   c2_set_overwrites_one_cell (SimpleConsole.new 0 3 3) 1 2 ⟨1, 0, 0, 1⟩
     ⟨0, 0, 1, 1⟩ 65 (by decide) (by decide) (by decide)⟩

/-- C7: `cls` sets the glyph of every cell to space (32) and leaves every
cell's foreground and background colours exactly as they were; it is total
(never fails). -/
theorem c7_cls_glyphs_only (c : SimpleConsole) :
    (c.cls).terminal.length = c.terminal.length
    ∧ ∀ i, i < c.terminal.length →
        (c.cls).terminal.getD i TerminalGlyph.default =
          { c.terminal.getD i TerminalGlyph.default with glyph := 32 } := by
  constructor
  · exact List.length_map ..
  · intro i hi
    simp only [SimpleConsole.cls, List.getD_eq_getElem?_getD,
      List.getElem?_map, List.getElem?_eq_getElem hi]
    simp [List.getD_eq_getElem _ _ hi]

/-- C7 witness: clearing a concrete 2 by 2 console, read back at index 0. -/
theorem c7_cls_glyphs_only_witness :
    ((SimpleConsole.new 0 2 2).cls).terminal.length =
      (SimpleConsole.new 0 2 2).terminal.length
    ∧ 0 < (SimpleConsole.new 0 2 2).terminal.length
    ∧ ((SimpleConsole.new 0 2 2).cls).terminal.getD 0 TerminalGlyph.default =
        { (SimpleConsole.new 0 2 2).terminal.getD 0 TerminalGlyph.default
            with glyph := 32 } :=
  ⟨(c7_cls_glyphs_only (SimpleConsole.new 0 2 2)).1, by decide,
   (c7_cls_glyphs_only (SimpleConsole.new 0 2 2)).2 0 (by decide)⟩

/-- C8: with an initialized back end, one call to the front-end
`update_mesh` performs exactly one pass of the three back-end steps in the
fixed order recompute-dirty (from the current grid), patch/rebuild
geometry, clear-dirty, and does not mutate the grid or the console's
dimensions or font index. -/
theorem c8_update_mesh_fixed_order (c : SimpleConsole) (be : Backend)
    (buffer : List (List Vertex)) (h : c.back_end = some be) :
    c.update_mesh buffer =
      ({ c with back_end := some (be.update_dirty c.terminal).clear_dirty },
       (be.update_dirty c.terminal).update_mesh c.terminal buffer,
       [BackendEvent.recomputeDirty, BackendEvent.patchGeometry,
        BackendEvent.clearDirty]) := by
  obtain ⟨fi, w, ht, t, beo⟩ := c
  simp only at h
  subst h
  rfl

/-- A concrete font, back end and console used by witnesses. -/
def fontT : FontMeta := ⟨16, 16, 8⟩

/-- A concrete back end used by witnesses: with-background, 2 by 2,
optimization enabled, no snapshot yet, all-dirty. -/
def beT : Backend := ⟨true, fontT, 2, 2, 0, false, none, .allDirty⟩

/-- A concrete initialized 2 by 2 console used by witnesses. -/
def conT : SimpleConsole :=
  { SimpleConsole.new 0 2 2 with back_end := some beT }

/-- C8 witness: the fixed-order equation at the concrete console `conT`. -/
theorem c8_update_mesh_fixed_order_witness :
    conT.back_end = some beT
    ∧ conT.update_mesh [] =
      ({ conT with back_end := some (beT.update_dirty conT.terminal).clear_dirty },
       (beT.update_dirty conT.terminal).update_mesh conT.terminal [],
       [BackendEvent.recomputeDirty, BackendEvent.patchGeometry,
        BackendEvent.clearDirty]) :=
  ⟨rfl, c8_update_mesh_fixed_order conT beT [] rfl⟩

/-- C9: before `initialize` has run (`back_end` is `none`), `spawn` and
`update_mesh` are silent no-ops: no entity is emitted, the geometry buffer
is untouched, no error is raised, and the console (grid, width, height,
font index) is returned unchanged. -/
theorem c9_uninitialized_noops (c : SimpleConsole) (material idx : Nat)
    (buffer : List (List Vertex)) (h : c.back_end = none) :
    c.spawn material idx = [] ∧ c.update_mesh buffer = (c, buffer, []) := by
  obtain ⟨fi, w, ht, t, beo⟩ := c
  simp only at h
  subst h
  exact ⟨rfl, rfl⟩

/-- C9 witness: a fresh console has no back end, and both operations are
no-ops on it. -/
theorem c9_uninitialized_noops_witness :
    (SimpleConsole.new 0 2 2).back_end = none
    ∧ ((SimpleConsole.new 0 2 2).spawn 7 3 = []
      ∧ (SimpleConsole.new 0 2 2).update_mesh [] =
          (SimpleConsole.new 0 2 2, [], [])) :=
  ⟨rfl, c9_uninitialized_noops (SimpleConsole.new 0 2 2) 7 3 [] rfl⟩

/-- C10: `set` performs no bounds check on `x`: for a console of height at
least 2, any row `1 ≤ y < height` and any overflowing `width ≤ x < 2*width`,
the checked write succeeds (no panic) and lands exactly on the distinct
in-bounds cell `(x - width, y - 1)`, every other in-bounds cell being
unchanged; and a write fails exactly when the index computation underflows
(`y ≥ height`) or the computed index `(height-1-y)*width + x` reaches
`width*height`. -/
theorem c10_set_wraps_unchecked (c : SimpleConsole) (x y : Nat)
    (fg bg : RGBA) (g : Nat)
    (hlen : c.terminal.length = c.width * c.height)
    (hh : 2 ≤ c.height) (hy1 : 1 ≤ y) (hy2 : y < c.height)
    (hx1 : c.width ≤ x) (hx2 : x < 2 * c.width) :
    c.setChecked x y fg bg g = some (c.set x y fg bg g)
    ∧ c.atIndex x y = c.atIndex (x - c.width) (y - 1)
    ∧ x - c.width < c.width ∧ y - 1 < c.height
    ∧ ¬(x - c.width = x ∧ y - 1 = y)
    ∧ (c.set x y fg bg g).getCell (x - c.width) (y - 1) = ⟨g, fg, bg⟩
    ∧ (∀ x' y', x' < c.width → y' < c.height →
        ¬(x' = x - c.width ∧ y' = y - 1) →
        (c.set x y fg bg g).getCell x' y' = c.getCell x' y')
    ∧ (∀ x0 y0 : Nat, c.setChecked x0 y0 fg bg g = none ↔
        (c.height ≤ y0 ∨
          c.width * c.height ≤ (c.height - 1 - y0) * c.width + x0)) := by
  have hw : 1 ≤ c.width := by omega
  have hxw : x - c.width < c.width := by omega
  have hyh : y - 1 < c.height := by omega
  have hidx : c.atIndex x y = c.atIndex (x - c.width) (y - 1) := by
    unfold SimpleConsole.atIndex
    have e1 : c.height - 1 - (y - 1) = c.height - 1 - y + 1 := by omega
    rw [e1, Nat.succ_mul]
    have e2 : ∀ A : Nat, A + x = A + c.width + (x - c.width) := by
      intro A; omega
    exact e2 _
  have hlt : c.atIndex x y < c.terminal.length :=
    hidx ▸ c.atIndex_lt hlen hxw hyh
  have hlt' : (c.height - 1 - y) * c.width + x < c.terminal.length := hlt
  have hchecked : c.setChecked x y fg bg g = some (c.set x y fg bg g) := by
    unfold SimpleConsole.setChecked SimpleConsole.atChecked
    rw [if_pos hy2]
    show (if (c.height - 1 - y) * c.width + x < c.terminal.length
        then _ else none) = _
    rw [if_pos hlt']
    rfl
  refine ⟨hchecked, hidx, hxw, hyh, by omega, ?_, ?_, ?_⟩
  · rw [c.set_eq_update, c.getCell_update_idx _ _ _ _ hlt, if_pos hidx.symm]
  · intro x' y' hx' hy' hne
    rw [c.set_eq_update, c.getCell_update_idx _ _ _ _ hlt]
    have : c.atIndex x' y' ≠ c.atIndex x y := by
      intro he
      rw [hidx] at he
      exact hne (c.atIndex_inj hx' hy' hxw hyh he)
    rw [if_neg this]
  · intro x0 y0
    unfold SimpleConsole.setChecked SimpleConsole.atChecked
    by_cases hy0 : y0 < c.height
    · rw [if_pos hy0]
      show (if (c.height - 1 - y0) * c.width + x0 < c.terminal.length
          then some _ else none) = none ↔ _
      by_cases hi : (c.height - 1 - y0) * c.width + x0 < c.terminal.length
      · rw [if_pos hi]
        rw [hlen] at hi
        constructor
        · intro hc
          exact absurd hc (by simp)
        · intro hc
          exfalso
          rcases hc with hc | hc
          · exact absurd hy0 (Nat.not_lt.mpr hc)
          · exact absurd (Nat.lt_of_lt_of_le hi hc) (Nat.lt_irrefl _)
      · rw [if_neg hi]
        rw [hlen] at hi
        simp only [eq_self_iff_true, true_iff]
        right
        exact Nat.not_lt.mp hi
    · rw [if_neg hy0]
      show (none : Option SimpleConsole) = none ↔ _
      simp only [eq_self_iff_true, true_iff]
      left
      exact Nat.not_lt.mp hy0

/-- A concrete uninitialized 5 by 5 console used by witnesses. -/
def conW : SimpleConsole := SimpleConsole.new 0 5 5

/-- C10 witness: on the 5 by 5 console, the out-of-range write at
`(6, 2)` wraps to cell `(1, 1)`. -/
theorem c10_set_wraps_unchecked_witness :
    (conW.terminal.length = conW.width * conW.height
      ∧ 2 ≤ conW.height ∧ 1 ≤ 2 ∧ 2 < conW.height
      ∧ conW.width ≤ 6 ∧ 6 < 2 * conW.width)
    ∧ (conW.setChecked 6 2 ⟨1, 0, 0, 1⟩ ⟨0, 0, 1, 1⟩ 65 =
        some (conW.set 6 2 ⟨1, 0, 0, 1⟩ ⟨0, 0, 1, 1⟩ 65)
      ∧ conW.atIndex 6 2 = conW.atIndex (6 - conW.width) (2 - 1)
      ∧ 6 - conW.width < conW.width ∧ 2 - 1 < conW.height
      ∧ ¬(6 - conW.width = 6 ∧ 2 - 1 = 2)
      ∧ (conW.set 6 2 ⟨1, 0, 0, 1⟩ ⟨0, 0, 1, 1⟩ 65).getCell
          (6 - conW.width) (2 - 1) = ⟨65, ⟨1, 0, 0, 1⟩, ⟨0, 0, 1, 1⟩⟩
      ∧ (∀ x' y', x' < conW.width → y' < conW.height →
          ¬(x' = 6 - conW.width ∧ y' = 2 - 1) →
          (conW.set 6 2 ⟨1, 0, 0, 1⟩ ⟨0, 0, 1, 1⟩ 65).getCell x' y' =
            conW.getCell x' y')
      ∧ (∀ x0 y0 : Nat,
          conW.setChecked x0 y0 ⟨1, 0, 0, 1⟩ ⟨0, 0, 1, 1⟩ 65 = none ↔
            (conW.height ≤ y0 ∨
              conW.width * conW.height ≤
                (conW.height - 1 - y0) * conW.width + x0))) :=
  ⟨⟨by decide, by decide, by decide, by decide, by decide, by decide⟩,
   c10_set_wraps_unchecked conW 6 2 ⟨1, 0, 0, 1⟩ ⟨0, 0, 1, 1⟩ 65 (by decide)
     (by decide) (by decide) (by decide) (by decide) (by decide)⟩

namespace SimpleConsole

theorem printColorLoop_cons (c : SimpleConsole) (x y : Nat) (fg bg : RGBA)
    (g : Nat) (rest : List Nat) :
    c.printColorLoop x y fg bg (g :: rest) =
      (c.set x y fg bg g).printColorLoop (x + 1) y fg bg rest := rfl

theorem printLoop_eq_color (c : SimpleConsole) (x y : Nat) (gs : List Nat) :
    c.printLoop x y gs = c.printColorLoop x y WHITE BLACK gs := by
  induction gs generalizing c x with
  | nil => rfl
  | cons g rest ih =>
    show (c.set x y WHITE BLACK g).printLoop (x + 1) y rest =
      (c.set x y WHITE BLACK g).printColorLoop (x + 1) y WHITE BLACK rest
    exact ih (c.set x y WHITE BLACK g) (x + 1)

theorem printColorLoop_dims (gs : List Nat) (c : SimpleConsole) (x y : Nat)
    (fg bg : RGBA) :
    (c.printColorLoop x y fg bg gs).width = c.width
    ∧ (c.printColorLoop x y fg bg gs).height = c.height
    ∧ (c.printColorLoop x y fg bg gs).terminal.length =
        c.terminal.length := by
  induction gs generalizing c x with
  | nil => exact ⟨rfl, rfl, rfl⟩
  | cons g rest ih =>
    rw [printColorLoop_cons]
    have h := ih (c.set x y fg bg g) (x + 1)
    simpa using h

theorem printColorLoop_getCell_of_ne (gs : List Nat) (c : SimpleConsole)
    (x y x0 y0 : Nat) (fg bg : RGBA)
    (hlen : c.terminal.length = c.width * c.height)
    (hy : y < c.height) (hx : x + gs.length ≤ c.width)
    (hx0 : x0 < c.width) (hy0 : y0 < c.height)
    (hne : y0 ≠ y ∨ x0 < x) :
    (c.printColorLoop x y fg bg gs).getCell x0 y0 = c.getCell x0 y0 := by
  induction gs generalizing c x with
  | nil => rfl
  | cons g rest ih =>
    simp only [List.length_cons] at hx
    have hxw : x < c.width := by omega
    rw [printColorLoop_cons]
    have h1 : (c.set x y fg bg g).terminal.length =
        (c.set x y fg bg g).width * (c.set x y fg bg g).height := by
      simp [hlen]
    have h2 := ih (c.set x y fg bg g) (x + 1) h1 (by simpa using hy)
      (by simp; omega) (by simpa using hx0) (by simpa using hy0)
      (by rcases hne with h | h; exact Or.inl h; exact Or.inr (by omega))
    rw [h2, c.getCell_set fg bg g hlen hx0 hy0 hxw hy]
    have : ¬(x0 = x ∧ y0 = y) := by
      rintro ⟨rfl, rfl⟩
      rcases hne with h | h
      · exact h rfl
      · omega
    rw [if_neg this]

theorem printColorLoop_getCell (gs : List Nat) (c : SimpleConsole)
    (x y : Nat) (fg bg : RGBA)
    (hlen : c.terminal.length = c.width * c.height)
    (hy : y < c.height) (hx : x + gs.length ≤ c.width) :
    ∀ i, i < gs.length →
      (c.printColorLoop x y fg bg gs).getCell (x + i) y =
        ⟨gs.getD i 0, fg, bg⟩ := by
  induction gs generalizing c x with
  | nil =>
    intro i hi
    exact absurd hi (by simp)
  | cons g rest ih =>
    intro i hi
    simp only [List.length_cons] at hx
    have hxw : x < c.width := by omega
    have h1 : (c.set x y fg bg g).terminal.length =
        (c.set x y fg bg g).width * (c.set x y fg bg g).height := by
      simp [hlen]
    rw [printColorLoop_cons]
    cases i with
    | zero =>
      simp only [Nat.add_zero, List.getD_cons_zero]
      rw [printColorLoop_getCell_of_ne rest (c.set x y fg bg g) (x + 1) y
        x y fg bg h1 (by simpa using hy) (by simp; omega)
        (by simpa using hxw) (by simpa using hy)
        (Or.inr (by omega))]
      rw [c.getCell_set fg bg g hlen hxw hy hxw hy]
      simp
    | succ i' =>
      simp only [List.length_cons] at hi
      have h2 := ih (c.set x y fg bg g) (x + 1) h1 (by simpa using hy)
        (by simp; omega) i' (by omega)
      have e : x + (i' + 1) = x + 1 + i' := by omega
      simp only [List.getD_cons_succ]
      convert h2 using 2

end SimpleConsole

/-- C5: `print x y text` writes the CP437 encoding of `text` into
consecutive cells starting at `(x, y)`, one glyph per cell with `x`
increasing, each cell white-on-black; `print_color` behaves identically
with the caller's colours in every written cell; and `print` equals
`print_color` with white and black. -/
theorem c5_print_and_print_color (c : SimpleConsole) (x y : Nat)
    (text : List Char) (fg bg : RGBA)
    (hlen : c.terminal.length = c.width * c.height)
    (hy : y < c.height) (hx : x + text.length ≤ c.width) :
    (∀ i, i < text.length →
      (c.print x y text).getCell (x + i) y =
        ⟨(string_to_cp437 text).getD i 0, WHITE, BLACK⟩)
    ∧ (∀ i, i < text.length →
      (c.print_color x y text fg bg).getCell (x + i) y =
        ⟨(string_to_cp437 text).getD i 0, fg, bg⟩)
    ∧ c.print x y text = c.print_color x y text WHITE BLACK := by
  have hle : (string_to_cp437 text).length = text.length := List.length_map ..
  refine ⟨?_, ?_, ?_⟩
  · intro i hi
    rw [SimpleConsole.print, SimpleConsole.printLoop_eq_color]
    exact SimpleConsole.printColorLoop_getCell _ c x y WHITE BLACK hlen hy
      (by rw [hle]; exact hx) i (by rw [hle]; exact hi)
  · intro i hi
    rw [SimpleConsole.print_color]
    exact SimpleConsole.printColorLoop_getCell _ c x y fg bg hlen hy
      (by rw [hle]; exact hx) i (by rw [hle]; exact hi)
  · rw [SimpleConsole.print, SimpleConsole.print_color,
      SimpleConsole.printLoop_eq_color]

/-- C5 witness: printing two characters on the 5 by 5 console at `(1, 2)`. -/
theorem c5_print_and_print_color_witness :
    (conW.terminal.length = conW.width * conW.height
      ∧ 2 < conW.height ∧ 1 + (['A', 'B'] : List Char).length ≤ conW.width)
    ∧ ((∀ i, i < (['A', 'B'] : List Char).length →
        (conW.print 1 2 ['A', 'B']).getCell (1 + i) 2 =
          ⟨(string_to_cp437 ['A', 'B']).getD i 0, WHITE, BLACK⟩)
      ∧ (∀ i, i < (['A', 'B'] : List Char).length →
        (conW.print_color 1 2 ['A', 'B'] ⟨1, 0, 0, 1⟩ ⟨0, 1, 0, 1⟩).getCell
            (1 + i) 2 =
          ⟨(string_to_cp437 ['A', 'B']).getD i 0, ⟨1, 0, 0, 1⟩, ⟨0, 1, 0, 1⟩⟩)
      ∧ conW.print 1 2 ['A', 'B'] =
          conW.print_color 1 2 ['A', 'B'] WHITE BLACK) :=
  ⟨⟨by decide, by decide, by decide⟩,
   c5_print_and_print_color conW 1 2 ['A', 'B'] ⟨1, 0, 0, 1⟩ ⟨0, 1, 0, 1⟩
     (by decide) (by decide) (by decide)⟩

/-- A concrete 10 by 1 console exhibiting the centering bug. -/
def conPC : SimpleConsole := SimpleConsole.new 0 10 1

/-- C6: the code violates the claim: `print_centered` centres using the raw
UTF-8 byte length of the text, not the encoded glyph count. For the
single-character text `"┌"` (3 bytes, 1 glyph) on a width-10 console the
code prints at `x = 10/2 - 3/2 = 4`, while the claimed behaviour
(`x = width/2 - len/2` with `len` the encoded-glyph count) would print at
`x = 10/2 - 1/2 = 5`: the glyph lands in column 4 and column 5 stays
blank. -/
theorem c6_print_centered_byte_length_bug :
    conPC.print_centered 0 ['┌'] = conPC.print 4 0 ['┌']
    ∧ rustStrLen ['┌'] = 3
    ∧ (string_to_cp437 ['┌']).length = 1
    ∧ conPC.width / 2 - (string_to_cp437 ['┌']).length / 2 = 5
    ∧ ((conPC.print_centered 0 ['┌']).getCell 4 0).glyph = to_cp437 '┌'
    ∧ ((conPC.print_centered 0 ['┌']).getCell 5 0).glyph = 32
    ∧ to_cp437 '┌' ≠ 32 :=
  ⟨by decide, by decide, by decide, by decide, by decide, by decide,
   by decide⟩

namespace SimpleConsole

theorem foldl_dims_of_step {α : Type} (step : SimpleConsole → α → SimpleConsole)
    (hw : ∀ c a, (step c a).width = c.width)
    (hh : ∀ c a, (step c a).height = c.height)
    (hl : ∀ c a, (step c a).terminal.length = c.terminal.length)
    (xs : List α) (c : SimpleConsole) :
    (xs.foldl step c).width = c.width
    ∧ (xs.foldl step c).height = c.height
    ∧ (xs.foldl step c).terminal.length = c.terminal.length := by
  induction xs generalizing c with
  | nil => exact ⟨rfl, rfl, rfl⟩
  | cons a rest ih =>
    rw [List.foldl_cons]
    have h := ih (step c a)
    exact ⟨h.1.trans (hw c a), h.2.1.trans (hh c a), h.2.2.trans (hl c a)⟩

theorem getCell_foldl_row (xs : List Nat) (c : SimpleConsole)
    (rowY : Nat) (fg bg : RGBA) (g : Nat) (x y : Nat)
    (hlen : c.terminal.length = c.width * c.height)
    (hxs : ∀ z ∈ xs, z < c.width) (hrow : rowY < c.height)
    (hx : x < c.width) (hy : y < c.height) :
    (xs.foldl (fun a z => a.set z rowY fg bg g) c).getCell x y =
      if y = rowY ∧ x ∈ xs then ⟨g, fg, bg⟩ else c.getCell x y := by
  induction xs generalizing c with
  | nil => simp
  | cons z rest ih =>
    rw [List.foldl_cons]
    have hz : z < c.width := hxs z (by simp)
    have hlen' : (c.set z rowY fg bg g).terminal.length =
        (c.set z rowY fg bg g).width * (c.set z rowY fg bg g).height := by
      simp [hlen]
    rw [ih (c.set z rowY fg bg g) hlen'
      (fun w hw => by simpa using hxs w (List.mem_cons_of_mem _ hw))
      (by simpa using hrow) (by simpa using hx) (by simpa using hy)]
    rw [c.getCell_set fg bg g hlen hx hy hz hrow]
    simp only [List.mem_cons]
    by_cases h1 : y = rowY
    · by_cases h2 : x = z
      · simp [h1, h2]
      · by_cases h3 : x ∈ rest
        · simp [h1, h2, h3]
        · simp [h1, h2, h3]
    · simp [h1]

theorem getCell_foldl_fill (ys xs : List Nat) (c : SimpleConsole)
    (fg bg : RGBA) (g : Nat) (x y : Nat)
    (hlen : c.terminal.length = c.width * c.height)
    (hxs : ∀ z ∈ xs, z < c.width) (hys : ∀ z ∈ ys, z < c.height)
    (hx : x < c.width) (hy : y < c.height) :
    (ys.foldl
        (fun acc yy => xs.foldl (fun a2 z => a2.set z yy fg bg g) acc)
        c).getCell x y =
      if y ∈ ys ∧ x ∈ xs then ⟨g, fg, bg⟩ else c.getCell x y := by
  induction ys generalizing c with
  | nil => simp
  | cons yy rest ih =>
    rw [List.foldl_cons]
    have hyy : yy < c.height := hys yy (by simp)
    have drow := foldl_dims_of_step
      (fun a z => a.set z yy fg bg g) (fun _ _ => rfl) (fun _ _ => rfl)
      (fun cc a => List.length_set ..) xs c
    have hlen' : (xs.foldl (fun a2 z => a2.set z yy fg bg g) c).terminal.length =
        (xs.foldl (fun a2 z => a2.set z yy fg bg g) c).width *
        (xs.foldl (fun a2 z => a2.set z yy fg bg g) c).height := by
      rw [drow.1, drow.2.1, drow.2.2, hlen]
    rw [ih (xs.foldl (fun a2 z => a2.set z yy fg bg g) c) hlen'
      (fun w hw => drow.1.symm ▸ hxs w hw)
      (fun w hw => drow.2.1.symm ▸ hys w (List.mem_cons_of_mem _ hw))
      (drow.1.symm ▸ hx) (drow.2.1.symm ▸ hy)]
    rw [getCell_foldl_row xs c yy fg bg g x y hlen hxs hyy hx hy]
    simp only [List.mem_cons]
    by_cases h1 : y = yy
    · by_cases h2 : x ∈ xs
      · simp [h1, h2]
      · by_cases h3 : y ∈ rest
        · simp [h1, h2, h3]
        · simp [h1, h2, h3]
    · simp [h1]

theorem getCell_foldl_two_rows (xs : List Nat) (c : SimpleConsole)
    (r1 r2 : Nat) (fg bg : RGBA) (g : Nat) (x y : Nat)
    (hlen : c.terminal.length = c.width * c.height)
    (hxs : ∀ z ∈ xs, z < c.width)
    (hr1 : r1 < c.height) (hr2 : r2 < c.height)
    (hx : x < c.width) (hy : y < c.height) :
    (xs.foldl (fun a z => (a.set z r1 fg bg g).set z r2 fg bg g) c).getCell
        x y =
      if (y = r1 ∨ y = r2) ∧ x ∈ xs then ⟨g, fg, bg⟩
      else c.getCell x y := by
  induction xs generalizing c with
  | nil => simp
  | cons z rest ih =>
    rw [List.foldl_cons]
    have hz : z < c.width := hxs z (by simp)
    have hlen1 : (c.set z r1 fg bg g).terminal.length =
        (c.set z r1 fg bg g).width * (c.set z r1 fg bg g).height := by
      simp [hlen]
    have hlen2 : ((c.set z r1 fg bg g).set z r2 fg bg g).terminal.length =
        ((c.set z r1 fg bg g).set z r2 fg bg g).width *
        ((c.set z r1 fg bg g).set z r2 fg bg g).height := by
      simp [hlen]
    rw [ih ((c.set z r1 fg bg g).set z r2 fg bg g) hlen2
      (fun w hw => by simpa using hxs w (List.mem_cons_of_mem _ hw))
      (by simpa using hr1) (by simpa using hr2)
      (by simpa using hx) (by simpa using hy)]
    rw [(c.set z r1 fg bg g).getCell_set fg bg g hlen1 (by simpa using hx)
      (by simpa using hy) (by simpa using hz) (by simpa using hr2)]
    rw [c.getCell_set fg bg g hlen hx hy hz hr1]
    simp only [List.mem_cons]
    by_cases h1 : x = z
    · by_cases h2 : y = r1
      · by_cases h3 : y = r2 <;> simp [h1, h2, h3]
      · by_cases h3 : y = r2 <;> simp [h1, h2, h3]
    · by_cases h4 : x ∈ rest
      · by_cases h2 : y = r1 <;> by_cases h3 : y = r2 <;>
          simp [h1, h2, h3, h4]
      · by_cases h2 : y = r1 <;> by_cases h3 : y = r2 <;>
          simp [h1, h2, h3, h4]

theorem getCell_foldl_two_cols (ys : List Nat) (c : SimpleConsole)
    (k1 k2 : Nat) (fg bg : RGBA) (g : Nat) (x y : Nat)
    (hlen : c.terminal.length = c.width * c.height)
    (hys : ∀ z ∈ ys, z < c.height)
    (hk1 : k1 < c.width) (hk2 : k2 < c.width)
    (hx : x < c.width) (hy : y < c.height) :
    (ys.foldl (fun a z => (a.set k1 z fg bg g).set k2 z fg bg g) c).getCell
        x y =
      if (x = k1 ∨ x = k2) ∧ y ∈ ys then ⟨g, fg, bg⟩
      else c.getCell x y := by
  induction ys generalizing c with
  | nil => simp
  | cons z rest ih =>
    rw [List.foldl_cons]
    have hz : z < c.height := hys z (by simp)
    have hlen1 : (c.set k1 z fg bg g).terminal.length =
        (c.set k1 z fg bg g).width * (c.set k1 z fg bg g).height := by
      simp [hlen]
    have hlen2 : ((c.set k1 z fg bg g).set k2 z fg bg g).terminal.length =
        ((c.set k1 z fg bg g).set k2 z fg bg g).width *
        ((c.set k1 z fg bg g).set k2 z fg bg g).height := by
      simp [hlen]
    rw [ih ((c.set k1 z fg bg g).set k2 z fg bg g) hlen2
      (fun w hw => by simpa using hys w (List.mem_cons_of_mem _ hw))
      (by simpa using hk1) (by simpa using hk2)
      (by simpa using hx) (by simpa using hy)]
    rw [(c.set k1 z fg bg g).getCell_set fg bg g hlen1 (by simpa using hx)
      (by simpa using hy) (by simpa using hk2) (by simpa using hz)]
    rw [c.getCell_set fg bg g hlen hx hy hk1 hz]
    simp only [List.mem_cons]
    by_cases h1 : y = z
    · by_cases h2 : x = k1
      · by_cases h3 : x = k2 <;> simp [h1, h2, h3]
      · by_cases h3 : x = k2 <;> simp [h1, h2, h3]
    · by_cases h4 : y ∈ rest
      · by_cases h2 : x = k1 <;> by_cases h3 : x = k2 <;>
          simp [h1, h2, h3, h4]
      · by_cases h2 : x = k1 <;> by_cases h3 : x = k2 <;>
          simp [h1, h2, h3, h4]

end SimpleConsole

namespace SimpleConsole

theorem draw_box_def (c : SimpleConsole) (sx sy bw bh : Nat) (fg bg : RGBA) :
    c.draw_box sx sy bw bh fg bg =
      (List.range' (sy + 1) (bh - 1)).foldl
        (fun acc y => (acc.set sx y fg bg (to_cp437 '│')).set (sx + bw) y
          fg bg (to_cp437 '│'))
        ((List.range' (sx + 1) (bw - 1)).foldl
          (fun acc x => (acc.set x sy fg bg (to_cp437 '─')).set x (sy + bh)
            fg bg (to_cp437 '─'))
          ((((((List.range' sy bh).foldl
            (fun acc y => (List.range' sx bw).foldl
              (fun acc2 x => acc2.set x y WHITE BLACK 32) acc) c).set sx sy
            fg bg (to_cp437 '┌')).set (sx + bw) sy fg bg
              (to_cp437 '┐')).set sx (sy + bh) fg bg
              (to_cp437 '└')).set (sx + bw) (sy + bh) fg bg
              (to_cp437 '┘'))) := rfl

theorem draw_box_getCell (c : SimpleConsole) (sx sy bw bh : Nat)
    (fg bg : RGBA) (x y : Nat)
    (hlen : c.terminal.length = c.width * c.height)
    (hbx : sx + bw < c.width) (hby : sy + bh < c.height)
    (hx : x < c.width) (hy : y < c.height) :
    (c.draw_box sx sy bw bh fg bg).getCell x y =
      if (x = sx ∨ x = sx + bw) ∧ y ∈ List.range' (sy + 1) (bh - 1) then
        ⟨to_cp437 '│', fg, bg⟩
      else if (y = sy ∨ y = sy + bh) ∧ x ∈ List.range' (sx + 1) (bw - 1) then
        ⟨to_cp437 '─', fg, bg⟩
      else if x = sx + bw ∧ y = sy + bh then ⟨to_cp437 '┘', fg, bg⟩
      else if x = sx ∧ y = sy + bh then ⟨to_cp437 '└', fg, bg⟩
      else if x = sx + bw ∧ y = sy then ⟨to_cp437 '┐', fg, bg⟩
      else if x = sx ∧ y = sy then ⟨to_cp437 '┌', fg, bg⟩
      else if y ∈ List.range' sy bh ∧ x ∈ List.range' sx bw then
        ⟨32, WHITE, BLACK⟩
      else c.getCell x y := by
  rw [draw_box_def]
  have hwI : ∀ (cc : SimpleConsole) (a : Nat),
      ((List.range' sx bw).foldl
        (fun acc2 x => acc2.set x a WHITE BLACK 32) cc).width = cc.width :=
    fun cc a => (foldl_dims_of_step
      (fun acc2 x => acc2.set x a WHITE BLACK 32) (fun _ _ => rfl)
      (fun _ _ => rfl) (fun c2 a2 => List.length_set ..)
      (List.range' sx bw) cc).1
  have hhI : ∀ (cc : SimpleConsole) (a : Nat),
      ((List.range' sx bw).foldl
        (fun acc2 x => acc2.set x a WHITE BLACK 32) cc).height = cc.height :=
    fun cc a => (foldl_dims_of_step
      (fun acc2 x => acc2.set x a WHITE BLACK 32) (fun _ _ => rfl)
      (fun _ _ => rfl) (fun c2 a2 => List.length_set ..)
      (List.range' sx bw) cc).2.1
  have hlI : ∀ (cc : SimpleConsole) (a : Nat),
      ((List.range' sx bw).foldl
        (fun acc2 x => acc2.set x a WHITE BLACK 32) cc).terminal.length =
        cc.terminal.length :=
    fun cc a => (foldl_dims_of_step
      (fun acc2 x => acc2.set x a WHITE BLACK 32) (fun _ _ => rfl)
      (fun _ _ => rfl) (fun c2 a2 => List.length_set ..)
      (List.range' sx bw) cc).2.2
  have dF := foldl_dims_of_step
    (fun acc y => (List.range' sx bw).foldl
      (fun acc2 x => acc2.set x y WHITE BLACK 32) acc)
    hwI hhI hlI (List.range' sy bh) c
  generalize hF : (List.range' sy bh).foldl
    (fun acc y => (List.range' sx bw).foldl
      (fun acc2 x => acc2.set x y WHITE BLACK 32) acc) c = F at dF ⊢
  obtain ⟨hFw, hFh, hFl⟩ := dF
  -- the four corner writes over F
  have hC5w : ((((F.set sx sy fg bg (to_cp437 '┌')).set (sx + bw) sy fg bg
      (to_cp437 '┐')).set sx (sy + bh) fg bg (to_cp437 '└')).set (sx + bw)
      (sy + bh) fg bg (to_cp437 '┘')).width = c.width := by simp [hFw]
  have hC5h : ((((F.set sx sy fg bg (to_cp437 '┌')).set (sx + bw) sy fg bg
      (to_cp437 '┐')).set sx (sy + bh) fg bg (to_cp437 '└')).set (sx + bw)
      (sy + bh) fg bg (to_cp437 '┘')).height = c.height := by simp [hFh]
  have hC5l : ((((F.set sx sy fg bg (to_cp437 '┌')).set (sx + bw) sy fg bg
      (to_cp437 '┐')).set sx (sy + bh) fg bg (to_cp437 '└')).set (sx + bw)
      (sy + bh) fg bg (to_cp437 '┘')).terminal.length =
      c.terminal.length := by simp [hFl]
  have dH := foldl_dims_of_step
    (fun acc x => (acc.set x sy fg bg (to_cp437 '─')).set x (sy + bh)
      fg bg (to_cp437 '─'))
    (fun _ _ => rfl) (fun _ _ => rfl) (fun c2 a2 => by simp)
    (List.range' (sx + 1) (bw - 1))
    ((((F.set sx sy fg bg (to_cp437 '┌')).set (sx + bw) sy fg bg
      (to_cp437 '┐')).set sx (sy + bh) fg bg (to_cp437 '└')).set (sx + bw)
      (sy + bh) fg bg (to_cp437 '┘'))
  generalize hH : (List.range' (sx + 1) (bw - 1)).foldl
    (fun acc x => (acc.set x sy fg bg (to_cp437 '─')).set x (sy + bh)
      fg bg (to_cp437 '─'))
    ((((F.set sx sy fg bg (to_cp437 '┌')).set (sx + bw) sy fg bg
      (to_cp437 '┐')).set sx (sy + bh) fg bg (to_cp437 '└')).set (sx + bw)
      (sy + bh) fg bg (to_cp437 '┘')) = H at dH ⊢
  obtain ⟨hHw, hHh, hHl⟩ := dH
  rw [hC5w] at hHw
  rw [hC5h] at hHh
  rw [hC5l] at hHl
  -- outermost: the vertical-edge fold over H
  rw [getCell_foldl_two_cols _ H sx (sx + bw) fg bg (to_cp437 '│') x y
    (by rw [hHl, hHw, hHh, hlen])
    (fun z hz => by
      rw [List.mem_range'_1] at hz
      rw [hHh]
      omega)
    (by rw [hHw]; omega) (by rw [hHw]; omega)
    (by rw [hHw]; exact hx) (by rw [hHh]; exact hy)]
  -- restore H and rewrite the horizontal-edge fold
  rw [← hH]
  rw [getCell_foldl_two_rows _ _ sy (sy + bh) fg bg (to_cp437 '─') x y
    (by rw [hC5l, hC5w, hC5h, hlen])
    (fun z hz => by
      rw [List.mem_range'_1] at hz
      rw [hC5w]
      omega)
    (by rw [hC5h]; omega) (by rw [hC5h]; omega)
    (by rw [hC5w]; exact hx) (by rw [hC5h]; exact hy)]
  -- the four corner writes, outermost (last write) first
  rw [getCell_set _ fg bg (to_cp437 '┘')
    (by simp [hFl, hFw, hFh, hlen]) (by simpa [hFw] using hx)
    (by simpa [hFh] using hy) (by simp [hFw]; omega) (by simp [hFh]; omega)]
  rw [getCell_set _ fg bg (to_cp437 '└')
    (by simp [hFl, hFw, hFh, hlen]) (by simpa [hFw] using hx)
    (by simpa [hFh] using hy) (by simp [hFw]; omega) (by simp [hFh]; omega)]
  rw [getCell_set _ fg bg (to_cp437 '┐')
    (by simp [hFl, hFw, hFh, hlen]) (by simpa [hFw] using hx)
    (by simpa [hFh] using hy) (by simp [hFw]; omega) (by simp [hFh]; omega)]
  rw [getCell_set _ fg bg (to_cp437 '┌')
    (by rw [hFl, hFw, hFh, hlen]) (by rw [hFw]; exact hx)
    (by rw [hFh]; exact hy) (by rw [hFw]; omega) (by rw [hFh]; omega)]
  -- restore F and rewrite the fill fold
  rw [← hF]
  rw [getCell_foldl_fill _ _ c WHITE BLACK 32 x y hlen
    (fun z hz => by
      rw [List.mem_range'_1] at hz
      omega)
    (fun z hz => by
      rw [List.mem_range'_1] at hz
      omega)
    hx hy]

end SimpleConsole

/-- C4 counterexample: the claim quantifies over every in-bounds call, but
at the degenerate in-bounds call `draw_box 1 1 0 0` (box parameters
`w = h = 0`) all four corner writes land on the single cell `(1, 1)` and
the last one wins, so that cell holds the south-east corner glyph, not the
claimed north-west corner glyph. -/
theorem c4_draw_box_counterexample :
    (conW.terminal.length = conW.width * conW.height
      ∧ 1 + 0 < conW.width ∧ 1 + 0 < conW.height)
    ∧ ((conW.draw_box 1 1 0 0 ⟨1, 0, 0, 1⟩ ⟨0, 0, 1, 1⟩).getCell 1 1).glyph
        = to_cp437 '┘'
    ∧ to_cp437 '┘' ≠ to_cp437 '┌' :=
  ⟨⟨by decide, by decide, by decide⟩, by decide, by decide⟩

/-- C4 (amended with `1 ≤ w` and `1 ≤ h`, which the counterexample forces):
for every in-bounds call with nondegenerate box parameters, `draw_box`
produces the four distinct corner glyphs, the horizontal edge glyph at
every interior `x` of both horizontal edges, the vertical edge glyph at
every interior `y` of both vertical edges, all with the caller's colours,
and every strictly interior cell blank (glyph 32, white on black). -/
theorem c4_draw_box_borders_and_blank_interior (c : SimpleConsole)
    (sx sy bw bh : Nat) (fg bg : RGBA)
    (hlen : c.terminal.length = c.width * c.height)
    (hbw : 1 ≤ bw) (hbh : 1 ≤ bh)
    (hbx : sx + bw < c.width) (hby : sy + bh < c.height) :
    (c.draw_box sx sy bw bh fg bg).getCell sx sy = ⟨to_cp437 '┌', fg, bg⟩
    ∧ (c.draw_box sx sy bw bh fg bg).getCell (sx + bw) sy =
        ⟨to_cp437 '┐', fg, bg⟩
    ∧ (c.draw_box sx sy bw bh fg bg).getCell sx (sy + bh) =
        ⟨to_cp437 '└', fg, bg⟩
    ∧ (c.draw_box sx sy bw bh fg bg).getCell (sx + bw) (sy + bh) =
        ⟨to_cp437 '┘', fg, bg⟩
    ∧ (∀ x, sx < x → x < sx + bw →
        (c.draw_box sx sy bw bh fg bg).getCell x sy =
            ⟨to_cp437 '─', fg, bg⟩
        ∧ (c.draw_box sx sy bw bh fg bg).getCell x (sy + bh) =
            ⟨to_cp437 '─', fg, bg⟩)
    ∧ (∀ y, sy < y → y < sy + bh →
        (c.draw_box sx sy bw bh fg bg).getCell sx y =
            ⟨to_cp437 '│', fg, bg⟩
        ∧ (c.draw_box sx sy bw bh fg bg).getCell (sx + bw) y =
            ⟨to_cp437 '│', fg, bg⟩)
    ∧ (∀ x y, sx < x → x < sx + bw → sy < y → y < sy + bh →
        (c.draw_box sx sy bw bh fg bg).getCell x y = ⟨32, WHITE, BLACK⟩) := by
  refine ⟨?_, ?_, ?_, ?_, ?_, ?_, ?_⟩
  · rw [c.draw_box_getCell sx sy bw bh fg bg sx sy hlen hbx hby
      (by omega) (by omega)]
    have hz1 : ¬(bw = 0) := by omega
    have hz2 : ¬(bh = 0) := by omega
    simp [List.mem_range'_1, hz1, hz2]
  · rw [c.draw_box_getCell sx sy bw bh fg bg (sx + bw) sy hlen hbx hby
      (by omega) (by omega)]
    have hz1 : ¬(bw = 0) := by omega
    have hz2 : ¬(bh = 0) := by omega
    have hz3 : ¬(sx + bw < sx + 1 + (bw - 1)) := by omega
    simp [List.mem_range'_1, hz1, hz2, hz3]
  · rw [c.draw_box_getCell sx sy bw bh fg bg sx (sy + bh) hlen hbx hby
      (by omega) (by omega)]
    have hz1 : ¬(bw = 0) := by omega
    have hz4 : ¬(sy + bh < sy + 1 + (bh - 1)) := by omega
    simp [List.mem_range'_1, hz1, hz4]
  · rw [c.draw_box_getCell sx sy bw bh fg bg (sx + bw) (sy + bh) hlen hbx
      hby (by omega) (by omega)]
    have hz3 : ¬(sx + bw < sx + 1 + (bw - 1)) := by omega
    have hz4 : ¬(sy + bh < sy + 1 + (bh - 1)) := by omega
    simp [List.mem_range'_1, hz3, hz4]
  · intro x h1 h2
    have ha : sx + 1 ≤ x := h1
    have hb : x < sx + 1 + (bw - 1) := by omega
    have hc : ¬(x = sx) := by omega
    have hd : ¬(x = sx + bw) := by omega
    constructor
    · rw [c.draw_box_getCell sx sy bw bh fg bg x sy hlen hbx hby
        (by omega) (by omega)]
      simp [List.mem_range'_1, ha, hb, hc, hd]
    · rw [c.draw_box_getCell sx sy bw bh fg bg x (sy + bh) hlen hbx hby
        (by omega) (by omega)]
      simp [List.mem_range'_1, ha, hb, hc, hd]
  · intro y h1 h2
    have ha : sy + 1 ≤ y := h1
    have hb : y < sy + 1 + (bh - 1) := by omega
    constructor
    · rw [c.draw_box_getCell sx sy bw bh fg bg sx y hlen hbx hby
        (by omega) (by omega)]
      simp [List.mem_range'_1, ha, hb]
    · rw [c.draw_box_getCell sx sy bw bh fg bg (sx + bw) y hlen hbx hby
        (by omega) (by omega)]
      simp [List.mem_range'_1, ha, hb]
  · intro x y h1 h2 h3 h4
    have ha1 : ¬(x = sx) := by omega
    have ha2 : ¬(x = sx + bw) := by omega
    have ha3 : ¬(y = sy) := by omega
    have ha4 : ¬(y = sy + bh) := by omega
    have hb1 : sy ≤ y := by omega
    have hb2 : y < sy + bh := h4
    have hb3 : sx ≤ x := by omega
    have hb4 : x < sx + bw := h2
    rw [c.draw_box_getCell sx sy bw bh fg bg x y hlen hbx hby
      (by omega) (by omega)]
    simp [List.mem_range'_1, ha1, ha2, ha3, ha4, hb1, hb2, hb3, hb4]

/-- C4 witness: the box `draw_box 0 0 3 2` on the 5 by 5 console. -/
theorem c4_draw_box_borders_and_blank_interior_witness :
    (conW.terminal.length = conW.width * conW.height
      ∧ 1 ≤ 3 ∧ 1 ≤ 2 ∧ 0 + 3 < conW.width ∧ 0 + 2 < conW.height)
    ∧ ((conW.draw_box 0 0 3 2 ⟨1, 0, 0, 1⟩ ⟨0, 0, 1, 1⟩).getCell 0 0 =
        ⟨to_cp437 '┌', ⟨1, 0, 0, 1⟩, ⟨0, 0, 1, 1⟩⟩
      ∧ (conW.draw_box 0 0 3 2 ⟨1, 0, 0, 1⟩ ⟨0, 0, 1, 1⟩).getCell (0 + 3) 0 =
          ⟨to_cp437 '┐', ⟨1, 0, 0, 1⟩, ⟨0, 0, 1, 1⟩⟩
      ∧ (conW.draw_box 0 0 3 2 ⟨1, 0, 0, 1⟩ ⟨0, 0, 1, 1⟩).getCell 0 (0 + 2) =
          ⟨to_cp437 '└', ⟨1, 0, 0, 1⟩, ⟨0, 0, 1, 1⟩⟩
      ∧ (conW.draw_box 0 0 3 2 ⟨1, 0, 0, 1⟩ ⟨0, 0, 1, 1⟩).getCell (0 + 3)
            (0 + 2) = ⟨to_cp437 '┘', ⟨1, 0, 0, 1⟩, ⟨0, 0, 1, 1⟩⟩
      ∧ (∀ x, 0 < x → x < 0 + 3 →
          (conW.draw_box 0 0 3 2 ⟨1, 0, 0, 1⟩ ⟨0, 0, 1, 1⟩).getCell x 0 =
              ⟨to_cp437 '─', ⟨1, 0, 0, 1⟩, ⟨0, 0, 1, 1⟩⟩
          ∧ (conW.draw_box 0 0 3 2 ⟨1, 0, 0, 1⟩ ⟨0, 0, 1, 1⟩).getCell x
                (0 + 2) = ⟨to_cp437 '─', ⟨1, 0, 0, 1⟩, ⟨0, 0, 1, 1⟩⟩)
      ∧ (∀ y, 0 < y → y < 0 + 2 →
          (conW.draw_box 0 0 3 2 ⟨1, 0, 0, 1⟩ ⟨0, 0, 1, 1⟩).getCell 0 y =
              ⟨to_cp437 '│', ⟨1, 0, 0, 1⟩, ⟨0, 0, 1, 1⟩⟩
          ∧ (conW.draw_box 0 0 3 2 ⟨1, 0, 0, 1⟩ ⟨0, 0, 1, 1⟩).getCell (0 + 3)
                y = ⟨to_cp437 '│', ⟨1, 0, 0, 1⟩, ⟨0, 0, 1, 1⟩⟩)
      ∧ (∀ x y, 0 < x → x < 0 + 3 → 0 < y → y < 0 + 2 →
          (conW.draw_box 0 0 3 2 ⟨1, 0, 0, 1⟩ ⟨0, 0, 1, 1⟩).getCell x y =
            ⟨32, WHITE, BLACK⟩)) :=
  ⟨⟨by decide, by decide, by decide, by decide, by decide⟩,
   c4_draw_box_borders_and_blank_interior conW 0 0 3 2 ⟨1, 0, 0, 1⟩
     ⟨0, 0, 1, 1⟩ (by decide) (by decide) (by decide) (by decide)
     (by decide)⟩

theorem filter_range_eq_single (n j : Nat) (p : Nat → Bool) (hj : j < n)
    (hp : ∀ i, i < n → (p i = true ↔ i = j)) :
    (List.range n).filter p = [j] := by
  induction n with
  | zero => omega
  | succ m ih =>
    rw [List.range_succ, List.filter_append]
    by_cases hjm : j = m
    · subst hjm
      have h1 : (List.range j).filter p = [] := by
        rw [List.filter_eq_nil_iff]
        intro a ha hpa
        rw [List.mem_range] at ha
        have := (hp a (by omega)).mp hpa
        omega
      have h2 : p j = true := (hp j (by omega)).mpr rfl
      rw [h1]
      simp [h2]
    · have hjm' : j < m := by omega
      rw [ih hjm' (fun i hi => hp i (by omega))]
      have h2 : ¬(p m = true) := by
        intro hpm
        have := (hp m (by omega)).mp hpm
        omega
      simp [h2]

theorem computeDirty_single (g0 : List TerminalGlyph) (j : Nat)
    (cell : TerminalGlyph) (hj : j < g0.length)
    (hne : cell ≠ g0.getD j TerminalGlyph.default) :
    computeDirty false (some g0) (g0.set j cell) = DirtySet.cells [j] := by
  show DirtySet.cells ((List.range (g0.set j cell).length).filter
    (fun i => (g0.set j cell).get? i ≠ g0.get? i)) = DirtySet.cells [j]
  congr 1
  apply filter_range_eq_single
  · rw [List.length_set]
    exact hj
  · intro i hi
    rw [List.length_set] at hi
    simp only [decide_eq_true_eq]
    constructor
    · intro hne2
      by_contra hij
      apply hne2
      rw [List.get?_eq_getElem?, List.get?_eq_getElem?,
        List.getElem?_set_ne (fun e => hij e.symm)]
    · intro hij
      subst hij
      rw [List.get?_eq_getElem?, List.get?_eq_getElem?,
        List.getElem?_set_eq_of_lt cell hj, List.getElem?_eq_getElem hj]
      intro heq
      apply hne
      rw [List.getD_eq_getElem g0 TerminalGlyph.default hj]
      exact Option.some.inj heq

theorem patch_single_eq_fullBuild (be : Backend) (g0 : List TerminalGlyph)
    (j : Nat) (cell : TerminalGlyph)
    (hlen : g0.length = be.width * be.height) (hj : j < g0.length) :
    patchBuffer be (g0.set j cell) [j] (fullBuild be g0) =
      fullBuild be (g0.set j cell) := by
  unfold patchBuffer
  rw [List.foldl_cons, List.foldl_nil]
  unfold fullBuild
  apply List.ext_getElem
  · simp
  · intro n h1 h2
    simp only [List.length_set, List.length_map, List.length_range] at h1 h2
    rw [List.getElem_set]
    by_cases hnj : j = n
    · rw [if_pos hnj]
      subst hnj
      rw [List.getElem_map, List.getElem_range]
    · rw [if_neg hnj]
      simp only [List.getElem_map, List.getElem_range]
      have hgd : (g0.set j cell).getD n TerminalGlyph.default =
          g0.getD n TerminalGlyph.default := by
        rw [List.getD_eq_getElem?_getD, List.getD_eq_getElem?_getD,
          List.getElem?_set_ne hnj]
      rw [hgd]

/-- C3: after an initial full build (snapshot retained, buffer built from
the snapshot grid), changing exactly one cell and running the per-frame
back-end update yields a dirty set holding exactly that cell's index (size
one), and the incrementally patched geometry buffer equals the buffer a
full rebuild would produce for the changed grid. -/
theorem c3_single_cell_dirty_patch_equals_rebuild (be : Backend)
    (g0 : List TerminalGlyph) (j : Nat) (cell : TerminalGlyph)
    (hopt : be.no_dirty_opt = false)
    (hsnap : be.snapshot = some g0)
    (hlen : g0.length = be.width * be.height)
    (hj : j < g0.length)
    (hne : cell ≠ g0.getD j TerminalGlyph.default) :
    (be.update_dirty (g0.set j cell)).dirty = DirtySet.cells [j]
    ∧ (be.update_dirty (g0.set j cell)).update_mesh (g0.set j cell)
        (fullBuild be g0) = fullBuild be (g0.set j cell) := by
  have hd : (be.update_dirty (g0.set j cell)).dirty = DirtySet.cells [j] := by
    show computeDirty be.no_dirty_opt be.snapshot (g0.set j cell) = _
    rw [hopt, hsnap]
    exact computeDirty_single g0 j cell hj hne
  refine ⟨hd, ?_⟩
  unfold Backend.update_mesh
  rw [hd]
  show patchBuffer be (g0.set j cell) [j] (fullBuild be g0) = _
  exact patch_single_eq_fullBuild be g0 j cell hlen hj

/-- A concrete snapshot grid and snapshot-holding back end for the C3
witness. -/
def gridT : List TerminalGlyph := List.replicate 4 TerminalGlyph.default

/-- A concrete back end that has already performed its initial full build
of `gridT` (snapshot retained, dirty clear). -/
def beS : Backend := ⟨true, fontT, 2, 2, 0, false, some gridT, .cells []⟩

/-- C3 witness: changing cell 1 of the 2 by 2 grid. -/
theorem c3_single_cell_dirty_patch_equals_rebuild_witness :
    (beS.no_dirty_opt = false
      ∧ beS.snapshot = some gridT
      ∧ gridT.length = beS.width * beS.height
      ∧ 1 < gridT.length
      ∧ (⟨65, WHITE, BLACK⟩ : TerminalGlyph) ≠
          gridT.getD 1 TerminalGlyph.default)
    ∧ ((beS.update_dirty (gridT.set 1 ⟨65, WHITE, BLACK⟩)).dirty =
        DirtySet.cells [1]
      ∧ (beS.update_dirty (gridT.set 1 ⟨65, WHITE, BLACK⟩)).update_mesh
          (gridT.set 1 ⟨65, WHITE, BLACK⟩) (fullBuild beS gridT) =
          fullBuild beS (gridT.set 1 ⟨65, WHITE, BLACK⟩)) :=
  ⟨⟨by decide, rfl, by decide, by decide, by decide⟩,
   c3_single_cell_dirty_patch_equals_rebuild beS gridT 1 ⟨65, WHITE, BLACK⟩
     (by decide) rfl (by decide) (by decide) (by decide)⟩
